import Mathlib

/-!
Verification of the write-ahead-log physical-record writer
(`db/log_writer.cc`, class `xengine::db::log::Writer`).

The writer fragments a logical byte string across fixed-size blocks,
prefixing each fragment with a 7-byte (legacy) or 11-byte (recyclable)
header, zero-padding block tails that cannot hold a header, and handing
each header+payload pair to a file sink as one append call.

The embedding below models bytes as natural numbers below 256, the file
sink as a trace of append calls together with a failure oracle indexed
by the call counter, and the C++ `assert` statements as a ghost boolean
that is and-ed with each asserted condition.
-/

namespace LogWriter

/-- Modelled from the spec: record-type constants of `db/log_format.h`
(not part of the provided sources).  Four legacy codes follow the
reserved zero type; the four recyclable codes are numerically above the
legacy code space. -/
def kZeroType : Nat := 0

def kFullType : Nat := 1

def kFirstType : Nat := 2

def kMiddleType : Nat := 3

def kLastType : Nat := 4

def kRecyclableFullType : Nat := 5

def kRecyclableFirstType : Nat := 6

def kRecyclableMiddleType : Nat := 7

def kRecyclableLastType : Nat := 8

def kMaxRecordType : Nat := kRecyclableLastType

/-- Modelled from the spec: block and header sizes of `db/log_format.h`
(not part of the provided sources): 32768-byte blocks, 7-byte legacy
headers (checksum 4, length 2, type 1) and 11-byte recyclable headers
(4 extra bytes for the low half of the log number). -/
def kBlockSize : Nat := 32768

def kHeaderSize : Nat := 4 + 2 + 1

def kRecyclableHeaderSize : Nat := 4 + 2 + 1 + 4

namespace crc32c

/-- Modelled from the spec: the CRC-32C (Castagnoli) checksum primitive
of `util/crc32c.h` (not part of the provided sources).  Reflected
polynomial, one shift-and-conditional-xor step. -/
def kPoly : Nat := 0x82F63B78

def step (c : Nat) : Nat :=
  if c % 2 = 1 then (c / 2) ^^^ kPoly else c / 2

def updateByte (c b : Nat) : Nat :=
  step^[8] (c ^^^ b % 256)

/-- Modelled from the spec: the extend operation combining a seed
checksum with additional bytes. -/
def Extend (seed : Nat) (bytes : List Nat) : Nat :=
  (bytes.foldl updateByte (seed ^^^ 0xFFFFFFFF)) ^^^ 0xFFFFFFFF

/-- Modelled from the spec: checksum of a byte string from scratch. -/
def Value (bytes : List Nat) : Nat := Extend 0 bytes

end crc32c

/-- Modelled from the spec: the little-endian fixed-width 32-bit encoder
of `util/coding.h` (not part of the provided sources). -/
def EncodeFixed32 (v : Nat) : List Nat :=
  [v % 256, v / 2 ^ 8 % 256, v / 2 ^ 16 % 256, v / 2 ^ 24 % 256]

/-- Modelled from the spec: `calculate_crc` (declared in `db/log_writer.h`,
not part of the provided sources) computes the checksum over the full
logical payload. -/
def calculate_crc (slice : List Nat) : Nat := crc32c.Value slice

/-- Result status of the writer operations (`common::Status`): the writer
only ever produces OK or an I/O-error. -/
inductive Status where
  | ok : Status
  | ioError : Status
deriving DecidableEq, Repr

/-- One call to the file sink `dest_->append`: either a single buffer
(the zero-padding trailer write) or a header+payload pair emitted as one
physical record. -/
inductive AppendCall where
  | one (bytes : List Nat) : AppendCall
  | two (header payload : List Nat) : AppendCall
deriving DecidableEq, Repr

/-- Mutable state of one writer: the in-block cursor `block_offset_`,
the number of sink calls made so far (indexing the failure oracle), the
trace of sink calls, and a ghost flag recording that every C++ `assert`
encountered so far held. -/
structure LogState where
  blockOffset : Nat
  calls : Nat
  trace : List AppendCall
  assertsOk : Bool
deriving DecidableEq, Repr

/-- Ghost bookkeeping for a C++ `assert`: the flag stays true only if
every asserted condition held. -/
def assertG (b : Bool) (st : LogState) : LogState :=
  { st with assertsOk := st.assertsOk && b }

/-- The trailer write `dest_->append(Slice("\x00...", leftover))`: one
single-buffer sink call of `len` zero bytes.  Its result is ignored by
the source, so the call only advances the call counter. -/
def appendPad (len : Nat) (st : LogState) : LogState :=
  { st with
    calls := st.calls + 1
    trace := st.trace ++ [AppendCall.one (List.replicate len 0)] }

/-- Block roll of `add_record_with_crc` (lines 233-245): when fewer than
`hsz` bytes remain in the current block, zero-pad the remainder (the pad
write is skipped when the remainder is zero; the source asserts the
header size is at most the 11-byte literal) and reset the cursor to 0. -/
def rollIfNeeded (hsz : Nat) (st : LogState) : LogState :=
  let leftover := kBlockSize - st.blockOffset
  if leftover < hsz then
    let st1 := if 0 < leftover then appendPad leftover (assertG (decide (hsz ≤ 11)) st) else st
    { st1 with blockOffset := 0 }
  else st

/-- Mode-dependent header size (line 224): recyclable headers carry the
extra 4-byte log-number field. -/
def headerSize (recycle : Bool) : Nat :=
  if recycle then kRecyclableHeaderSize else kHeaderSize

/-- Record-type selection of `add_record_with_crc` (lines 253-263). -/
def recordTypeOf (recycle begin isEnd : Bool) : Nat :=
  if begin && isEnd then (if recycle then kRecyclableFullType else kFullType)
  else if begin then (if recycle then kRecyclableFirstType else kFirstType)
  else if isEnd then (if recycle then kRecyclableLastType else kLastType)
  else (if recycle then kRecyclableMiddleType else kMiddleType)

/-- The header bytes built by `EmitPhysicalRecord` (lines 280-304):
checksum (4 bytes, little-endian), fragment length (2 bytes), type byte,
and, for recyclable types, the low 32 bits of the log number. -/
def recordHeader (logNumber t n crc : Nat) : List Nat :=
  let base := EncodeFixed32 crc ++ [n % 256, n / 2 ^ 8 % 256, t]
  if t < kRecyclableFullType then base else base ++ EncodeFixed32 logNumber

/-- `Writer::EmitPhysicalRecord` (lines 273-313): assert the two
preconditions, build the header, issue one two-buffer sink call; on
success advance the cursor by header size plus payload length, on sink
failure return an I/O error without advancing the cursor. -/
def emitPhysicalRecord (failAt : Nat → Bool) (logNumber t : Nat)
    (payload : List Nat) (crc : Nat) (st : LogState) : Status × LogState :=
  let n := payload.length
  let st1 := assertG (decide (n ≤ 0xffff)) st
  let st2 := assertG
    (decide (st1.blockOffset + (if t < kRecyclableFullType then kHeaderSize
      else kRecyclableHeaderSize) + n ≤ kBlockSize)) st1
  let buf := recordHeader logNumber t n crc
  let ret := failAt st2.calls
  let st3 := { st2 with
    calls := st2.calls + 1
    trace := st2.trace ++ [AppendCall.two buf payload] }
  if ret then (Status.ioError, st3)
  else (Status.ok, { st3 with blockOffset := st3.blockOffset + buf.length + n })

theorem recordHeader_length (logNumber t n crc : Nat) :
    (recordHeader logNumber t n crc).length =
      if t < kRecyclableFullType then kHeaderSize else kRecyclableHeaderSize := by
  unfold recordHeader EncodeFixed32 kHeaderSize kRecyclableHeaderSize
  split <;> simp

theorem recordTypeOf_lt_of_legacy (begin isEnd : Bool) :
    recordTypeOf false begin isEnd < kRecyclableFullType := by
  unfold recordTypeOf kFullType kFirstType kLastType kMiddleType kRecyclableFullType
  cases begin <;> cases isEnd <;> simp

theorem recordTypeOf_ge_of_recycle (begin isEnd : Bool) :
    kRecyclableFullType ≤ recordTypeOf true begin isEnd ∧
      recordTypeOf true begin isEnd ≤ kRecyclableLastType := by
  unfold recordTypeOf kRecyclableFullType kRecyclableFirstType kRecyclableLastType
    kRecyclableMiddleType
  cases begin <;> cases isEnd <;> simp

theorem headerSize_le (recycle : Bool) : headerSize recycle ≤ 11 := by
  unfold headerSize kHeaderSize kRecyclableHeaderSize
  cases recycle <;> simp

theorem headerSize_pos (recycle : Bool) : 0 < headerSize recycle := by
  unfold headerSize kHeaderSize kRecyclableHeaderSize
  cases recycle <;> simp

theorem headerSize_lt_kBlockSize (recycle : Bool) : headerSize recycle < kBlockSize := by
  unfold headerSize kHeaderSize kRecyclableHeaderSize kBlockSize
  cases recycle <;> simp

/-- The header built for the type chosen in mode `recycle` is exactly
`headerSize recycle` bytes long. -/
theorem recordHeader_length_typeOf (logNumber n crc : Nat) (recycle begin isEnd : Bool) :
    (recordHeader logNumber (recordTypeOf recycle begin isEnd) n crc).length =
      headerSize recycle := by
  rw [recordHeader_length]
  cases recycle
  · rw [if_pos (recordTypeOf_lt_of_legacy begin isEnd)]; rfl
  · rw [if_neg (by have := (recordTypeOf_ge_of_recycle begin isEnd).1; omega)]; rfl

@[simp] theorem assertG_blockOffset (b : Bool) (st : LogState) :
    (assertG b st).blockOffset = st.blockOffset := rfl

@[simp] theorem assertG_calls (b : Bool) (st : LogState) :
    (assertG b st).calls = st.calls := rfl

@[simp] theorem assertG_trace (b : Bool) (st : LogState) :
    (assertG b st).trace = st.trace := rfl

@[simp] theorem appendPad_blockOffset (len : Nat) (st : LogState) :
    (appendPad len st).blockOffset = st.blockOffset := rfl

theorem rollIfNeeded_blockOffset (hsz : Nat) (st : LogState) :
    (rollIfNeeded hsz st).blockOffset =
      if kBlockSize - st.blockOffset < hsz then 0 else st.blockOffset := by
  unfold rollIfNeeded appendPad assertG
  by_cases h1 : kBlockSize - st.blockOffset < hsz <;>
    by_cases h2 : 0 < kBlockSize - st.blockOffset <;> simp [h1, h2]

theorem rollIfNeeded_trace (hsz : Nat) (st : LogState) :
    (rollIfNeeded hsz st).trace = st.trace ++
      (if kBlockSize - st.blockOffset < hsz ∧ 0 < kBlockSize - st.blockOffset
        then [AppendCall.one (List.replicate (kBlockSize - st.blockOffset) 0)] else []) := by
  unfold rollIfNeeded appendPad assertG
  by_cases h1 : kBlockSize - st.blockOffset < hsz <;>
    by_cases h2 : 0 < kBlockSize - st.blockOffset <;> simp [h1, h2]

theorem rollIfNeeded_calls (hsz : Nat) (st : LogState) :
    (rollIfNeeded hsz st).calls = st.calls +
      (if kBlockSize - st.blockOffset < hsz ∧ 0 < kBlockSize - st.blockOffset then 1 else 0) := by
  unfold rollIfNeeded appendPad assertG
  by_cases h1 : kBlockSize - st.blockOffset < hsz <;>
    by_cases h2 : 0 < kBlockSize - st.blockOffset <;> simp [h1, h2]

theorem rollIfNeeded_assertsOk (hsz : Nat) (st : LogState) :
    (rollIfNeeded hsz st).assertsOk = (st.assertsOk &&
      (if kBlockSize - st.blockOffset < hsz ∧ 0 < kBlockSize - st.blockOffset
        then decide (hsz ≤ 11) else true)) := by
  unfold rollIfNeeded appendPad assertG
  by_cases h1 : kBlockSize - st.blockOffset < hsz <;>
    by_cases h2 : 0 < kBlockSize - st.blockOffset <;> simp [h1, h2]

/-- After a roll the remaining block space can hold a header (this is the
invariant asserted at line 248, proved here rather than only tracked). -/
theorem rollIfNeeded_blockOffset_le (hsz : Nat) (h : hsz < kBlockSize) (st : LogState) :
    hsz ≤ kBlockSize - (rollIfNeeded hsz st).blockOffset := by
  rw [rollIfNeeded_blockOffset]
  split <;> omega

theorem emitPhysicalRecord_fst (failAt : Nat → Bool) (logNumber t : Nat)
    (payload : List Nat) (crc : Nat) (st : LogState) :
    (emitPhysicalRecord failAt logNumber t payload crc st).1 =
      if failAt st.calls then Status.ioError else Status.ok := by
  unfold emitPhysicalRecord assertG
  by_cases h : failAt st.calls <;> simp [h]

theorem emitPhysicalRecord_blockOffset (failAt : Nat → Bool) (logNumber t : Nat)
    (payload : List Nat) (crc : Nat) (st : LogState) :
    (emitPhysicalRecord failAt logNumber t payload crc st).2.blockOffset =
      if failAt st.calls then st.blockOffset
      else st.blockOffset + (recordHeader logNumber t payload.length crc).length
        + payload.length := by
  unfold emitPhysicalRecord assertG
  by_cases h : failAt st.calls <;> simp [h]

theorem emitPhysicalRecord_trace (failAt : Nat → Bool) (logNumber t : Nat)
    (payload : List Nat) (crc : Nat) (st : LogState) :
    (emitPhysicalRecord failAt logNumber t payload crc st).2.trace =
      st.trace ++ [AppendCall.two (recordHeader logNumber t payload.length crc) payload] := by
  unfold emitPhysicalRecord assertG
  by_cases h : failAt st.calls <;> simp [h]

theorem emitPhysicalRecord_calls (failAt : Nat → Bool) (logNumber t : Nat)
    (payload : List Nat) (crc : Nat) (st : LogState) :
    (emitPhysicalRecord failAt logNumber t payload crc st).2.calls = st.calls + 1 := by
  unfold emitPhysicalRecord assertG
  by_cases h : failAt st.calls <;> simp [h]

theorem emitPhysicalRecord_assertsOk (failAt : Nat → Bool) (logNumber t : Nat)
    (payload : List Nat) (crc : Nat) (st : LogState) :
    (emitPhysicalRecord failAt logNumber t payload crc st).2.assertsOk =
      (st.assertsOk && decide (payload.length ≤ 0xffff) &&
        decide (st.blockOffset + (if t < kRecyclableFullType then kHeaderSize
          else kRecyclableHeaderSize) + payload.length ≤ kBlockSize)) := by
  unfold emitPhysicalRecord assertG
  by_cases h : failAt st.calls <;> simp [h]

/-- `Writer::add_record_with_crc` (lines 219-271) as a recursive function
over the remaining payload `ptr`: one call is one iteration of the
`do ... while (s.ok() && left > 0)` fragmentation loop.  The ghost
assert at the top is line 234 (`leftover >= 0` over int64 arithmetic,
i.e. the cursor has not passed the block end); the assert after the roll
is line 248. -/
def addLoop (failAt : Nat → Bool) (recycle : Bool) (logNumber crc : Nat)
    (ptr : List Nat) (begin : Bool) (st : LogState) : Status × LogState :=
  let header_size := headerSize recycle
  let st0 := assertG (decide (st.blockOffset ≤ kBlockSize)) st
  let st1 := assertG (decide (header_size ≤ kBlockSize - (rollIfNeeded header_size st0).blockOffset))
    (rollIfNeeded header_size st0)
  let avail := kBlockSize - st1.blockOffset - header_size
  let fragment_length := min ptr.length avail
  let type := recordTypeOf recycle begin (decide (ptr.length = fragment_length))
  let r := emitPhysicalRecord failAt logNumber type (ptr.take fragment_length) crc st1
  let rest := ptr.drop fragment_length
  if h : r.1 = Status.ok ∧ rest ≠ [] then
    addLoop failAt recycle logNumber crc rest false r.2
  else r
termination_by 2 * ptr.length +
  (if kBlockSize - st.blockOffset < headerSize recycle then 0 else 1)
decreasing_by
  unfold r rest fragment_length type avail st1 st0 header_size at h
  obtain ⟨hok, hne⟩ := h
  simp only [emitPhysicalRecord_fst, assertG_calls, ite_eq_right_iff, reduceCtorEq] at hok
  simp only [ne_eq, List.drop_eq_nil_iff, not_le, assertG_blockOffset,
    rollIfNeeded_blockOffset, Nat.min_def] at hne
  simp only [emitPhysicalRecord_blockOffset, assertG_blockOffset, assertG_calls,
    recordHeader_length_typeOf, rollIfNeeded_blockOffset, List.length_drop, List.length_take,
    Nat.min_def]
  rw [if_neg hok]
  have hblk : headerSize recycle < kBlockSize := headerSize_lt_kBlockSize recycle
  have hpos : 0 < headerSize recycle := headerSize_pos recycle
  split_ifs at hne ⊢ <;> omega

/-- The immutable identity of a writer: log number, recycle mode, and the
per-type checksum table `type_crc_` filled by the constructor. -/
structure Writer where
  log_number : Nat
  recycle_log_files : Bool
  type_crc : List Nat
deriving DecidableEq, Repr

/-- The constructor `Writer::Writer` (lines 164-176): stores the log
number and recycle flag, starts the cursor at offset 0 of a fresh block
(see `initState`), and fills `type_crc_[i]` with the checksum of the
single type byte `i` for every record type. -/
def Writer.init (log_number : Nat) (recycle_log_files : Bool) : Writer :=
  { log_number, recycle_log_files,
    type_crc := (List.range (kMaxRecordType + 1)).map fun i => crc32c.Value [i] }

/-- Cursor and sink state right after construction: `block_offset_(0)`,
no sink calls yet, no assert violated. -/
def initState : LogState :=
  { blockOffset := 0, calls := 0, trace := [], assertsOk := true }

/-- `Writer::add_record_with_crc` (lines 219-271): run the fragmentation
loop on the whole slice with `begin = true`. -/
def Writer.add_record_with_crc (w : Writer) (failAt : Nat → Bool)
    (slice : List Nat) (crc : Nat) (st : LogState) : Status × LogState :=
  addLoop failAt w.recycle_log_files w.log_number crc slice true st

/-- The two-argument `Writer::AddRecord(slice, crc)` (lines 215-217):
the caller-supplied checksum is passed through verbatim. -/
def Writer.AddRecordCrc (w : Writer) (failAt : Nat → Bool)
    (slice : List Nat) (crc : Nat) (st : LogState) : Status × LogState :=
  w.add_record_with_crc failAt slice crc st

/-- The one-argument `Writer::AddRecord(slice)` (lines 211-213): the
checksum is computed over the full logical payload. -/
def Writer.AddRecord (w : Writer) (failAt : Nat → Bool)
    (slice : List Nat) (st : LogState) : Status × LogState :=
  w.AddRecordCrc failAt slice (calculate_crc slice) st

/-- The physical records of a sink trace: the header/payload pairs of
the two-buffer append calls, in emission order (padding writes are not
physical records). -/
def emittedRecords : List AppendCall → List (List Nat × List Nat)
  | [] => []
  | AppendCall.one _ :: rest => emittedRecords rest
  | AppendCall.two h p :: rest => (h, p) :: emittedRecords rest

/-- Ordered concatenation of the payload bytes of a record list. -/
def payloadConcat (l : List (List Nat × List Nat)) : List Nat :=
  (l.map Prod.snd).flatten

/-- The records a run starting from `st` added beyond those already in
the trace of `st`. -/
def newRecords (st : LogState) (out : LogState) : List (List Nat × List Nat) :=
  (emittedRecords out.trace).drop (emittedRecords st.trace).length

@[simp] theorem emittedRecords_append (a b : List AppendCall) :
    emittedRecords (a ++ b) = emittedRecords a ++ emittedRecords b := by
  induction a with
  | nil => rfl
  | cons c rest ih => cases c <;> simp [emittedRecords, ih]

@[simp] theorem payloadConcat_append (a b : List (List Nat × List Nat)) :
    payloadConcat (a ++ b) = payloadConcat a ++ payloadConcat b := by
  simp [payloadConcat]

/-- The padding calls a roll from state `st` adds to the trace. -/
def padOpt (hsz : Nat) (st : LogState) : List AppendCall :=
  if kBlockSize - st.blockOffset < hsz ∧ 0 < kBlockSize - st.blockOffset
  then [AppendCall.one (List.replicate (kBlockSize - st.blockOffset) 0)] else []

theorem rollIfNeeded_trace_padOpt (hsz : Nat) (st : LogState) :
    (rollIfNeeded hsz st).trace = st.trace ++ padOpt hsz st := by
  rw [rollIfNeeded_trace, padOpt]

@[simp] theorem emittedRecords_padOpt (hsz : Nat) (st : LogState) :
    emittedRecords (padOpt hsz st) = [] := by
  unfold padOpt
  split <;> simp [emittedRecords]

@[simp] theorem payloadConcat_nil : payloadConcat [] = [] := rfl

theorem payloadConcat_cons (h p : List Nat) (l : List (List Nat × List Nat)) :
    payloadConcat ((h, p) :: l) = p ++ payloadConcat l := by
  simp [payloadConcat]

/-- Shape of every physical record one `add_record_with_crc` run emits:
a header built by `recordHeader` from the mode-selected record type, the
fragment length, and the record-level checksum `crc`, with the fragment
small enough that header plus payload fit one block. -/
def recP (recycle : Bool) (logNumber crc : Nat) (r : List Nat × List Nat) : Prop :=
  ∃ b e, r.1 = recordHeader logNumber (recordTypeOf recycle b e) r.2.length crc ∧
    r.2.length + headerSize recycle ≤ kBlockSize

theorem addLoop_main (failAt : Nat → Bool) (recycle : Bool) (logNumber crc : Nat)
    (ptr : List Nat) (begin : Bool) (st : LogState) :
    ∃ tail,
      (addLoop failAt recycle logNumber crc ptr begin st).2.trace = st.trace ++ tail ∧
      List.Forall (recP recycle logNumber crc) (emittedRecords tail) ∧
      ((addLoop failAt recycle logNumber crc ptr begin st).1 = Status.ok →
        payloadConcat (emittedRecords tail) = ptr) := by
  induction ptr, begin, st using addLoop.induct failAt recycle logNumber crc with
  | case1 ptr begin st hsz st0 st1 avail fl ty r rest hc ih =>
    obtain ⟨tail0, htr, hall, hcat⟩ := ih
    have hstep : addLoop failAt recycle logNumber crc ptr begin st =
        addLoop failAt recycle logNumber crc rest false r.2 := by
      conv_lhs => rw [addLoop]
      exact dif_pos hc
    have hemit : r.2.trace = st1.trace ++
        [AppendCall.two (recordHeader logNumber ty (List.take fl ptr).length crc)
          (List.take fl ptr)] :=
      emitPhysicalRecord_trace failAt logNumber ty (List.take fl ptr) crc st1
    have hroll : st1.trace = st.trace ++ padOpt hsz st :=
      rollIfNeeded_trace_padOpt hsz st0
    have hrec : recP recycle logNumber crc
        (recordHeader logNumber ty (List.take fl ptr).length crc, List.take fl ptr) := by
      refine ⟨begin, decide (ptr.length = fl), rfl, ?_⟩
      have h1 : fl ≤ kBlockSize - st1.blockOffset - hsz := Nat.min_le_right _ _
      have h2 : hsz ≤ 11 := headerSize_le recycle
      have h3 : (List.take fl ptr).length ≤ fl := by
        rw [List.length_take]; exact Nat.min_le_left _ _
      have h4 : kBlockSize = 32768 := rfl
      have h5 : headerSize recycle = hsz := rfl
      show (List.take fl ptr).length + headerSize recycle ≤ kBlockSize
      rw [h5]
      omega
    refine ⟨padOpt hsz st ++ (AppendCall.two
      (recordHeader logNumber ty (List.take fl ptr).length crc) (List.take fl ptr)) :: tail0,
      ?_, ?_, ?_⟩
    · rw [hstep, htr, hemit, hroll]
      simp
    · simp only [emittedRecords_append, emittedRecords_padOpt, emittedRecords,
        List.nil_append, List.forall_cons]
      exact ⟨hrec, hall⟩
    · intro hok
      rw [hstep] at hok
      have := hcat hok
      simp only [emittedRecords_append, emittedRecords_padOpt, emittedRecords,
        List.nil_append, payloadConcat_cons, this]
      have : rest = List.drop fl ptr := rfl
      rw [this]
      exact List.take_append_drop fl ptr
  | case2 ptr begin st hsz st0 st1 avail fl ty r rest hc =>
    have hstep : addLoop failAt recycle logNumber crc ptr begin st = r := by
      conv_lhs => rw [addLoop]
      exact dif_neg hc
    have hemit : r.2.trace = st1.trace ++
        [AppendCall.two (recordHeader logNumber ty (List.take fl ptr).length crc)
          (List.take fl ptr)] :=
      emitPhysicalRecord_trace failAt logNumber ty (List.take fl ptr) crc st1
    have hroll : st1.trace = st.trace ++ padOpt hsz st :=
      rollIfNeeded_trace_padOpt hsz st0
    have hrec : recP recycle logNumber crc
        (recordHeader logNumber ty (List.take fl ptr).length crc, List.take fl ptr) := by
      refine ⟨begin, decide (ptr.length = fl), rfl, ?_⟩
      have h1 : fl ≤ kBlockSize - st1.blockOffset - hsz := Nat.min_le_right _ _
      have h2 : hsz ≤ 11 := headerSize_le recycle
      have h3 : (List.take fl ptr).length ≤ fl := by
        rw [List.length_take]; exact Nat.min_le_left _ _
      have h4 : kBlockSize = 32768 := rfl
      have h5 : headerSize recycle = hsz := rfl
      show (List.take fl ptr).length + headerSize recycle ≤ kBlockSize
      rw [h5]
      omega
    refine ⟨padOpt hsz st ++ [AppendCall.two
      (recordHeader logNumber ty (List.take fl ptr).length crc) (List.take fl ptr)],
      ?_, ?_, ?_⟩
    · rw [hstep, hemit, hroll]
      simp
    · simp only [emittedRecords_append, emittedRecords_padOpt, emittedRecords,
        List.nil_append, List.forall_cons]
      exact ⟨hrec, trivial⟩
    · intro hok
      rw [hstep] at hok
      have hrest : rest = [] := by
        by_cases hr : rest = []
        · exact hr
        · exact absurd ⟨hok, hr⟩ hc
      have hdrop : List.drop fl ptr = [] := hrest
      have hlen : ptr.length ≤ fl := List.drop_eq_nil_iff.mp hdrop
      simp only [emittedRecords_append, emittedRecords_padOpt, emittedRecords,
        List.nil_append, payloadConcat_cons]
      rw [List.take_of_length_le hlen]
      simp [payloadConcat]

/-- One unfolding of the fragmentation loop, stated without the ghost
binders so later proofs can rewrite a run one iteration at a time. -/
theorem addLoop_step (failAt : Nat → Bool) (recycle : Bool) (logNumber crc : Nat)
    (ptr : List Nat) (begin : Bool) (st : LogState) :
    addLoop failAt recycle logNumber crc ptr begin st =
      (let hsz := headerSize recycle
      let st1 := assertG (decide (hsz ≤ kBlockSize -
        (rollIfNeeded hsz (assertG (decide (st.blockOffset ≤ kBlockSize)) st)).blockOffset))
        (rollIfNeeded hsz (assertG (decide (st.blockOffset ≤ kBlockSize)) st))
      let fl := min ptr.length (kBlockSize - st1.blockOffset - hsz)
      let r := emitPhysicalRecord failAt logNumber
        (recordTypeOf recycle begin (decide (ptr.length = fl))) (ptr.take fl) crc st1
      if r.1 = Status.ok ∧ ptr.drop fl ≠ [] then
        addLoop failAt recycle logNumber crc (ptr.drop fl) false r.2
      else r) := by
  rw [addLoop]
  rfl

/-- The checksum field occupies the first four header bytes and is the
`crc` argument, encoded little-endian, for both header layouts. -/
theorem recordHeader_take4 (logNumber t n crc : Nat) :
    (recordHeader logNumber t n crc).take 4 = EncodeFixed32 crc := by
  unfold recordHeader EncodeFixed32
  split <;> simp

/-- For recyclable types the last four header bytes are the encoded low
32 bits of the log number. -/
theorem recordHeader_drop7 (logNumber t n crc : Nat) (h : ¬t < kRecyclableFullType) :
    (recordHeader logNumber t n crc).drop 7 = EncodeFixed32 logNumber := by
  unfold recordHeader EncodeFixed32
  rw [if_neg h]
  simp

/-- Byte 6 of every header is the record-type byte. -/
theorem recordHeader_getD6 (logNumber t n crc : Nat) :
    (recordHeader logNumber t n crc).getD 6 0 = t := by
  unfold recordHeader EncodeFixed32
  split <;> simp

theorem newRecords_of_trace_append (st out : LogState) (tail : List AppendCall)
    (h : out.trace = st.trace ++ tail) :
    newRecords st out = emittedRecords tail := by
  rw [newRecords, h, emittedRecords_append, List.drop_left]

/-- The per-record shape of `addLoop_main`, restated on `newRecords`. -/
theorem addLoop_newRecords (failAt : Nat → Bool) (recycle : Bool) (logNumber crc : Nat)
    (ptr : List Nat) (begin : Bool) (st : LogState) :
    List.Forall (recP recycle logNumber crc)
      (newRecords st (addLoop failAt recycle logNumber crc ptr begin st).2) ∧
    ((addLoop failAt recycle logNumber crc ptr begin st).1 = Status.ok →
      payloadConcat (newRecords st (addLoop failAt recycle logNumber crc ptr begin st).2) =
        ptr) := by
  obtain ⟨tail, htr, hall, hcat⟩ := addLoop_main failAt recycle logNumber crc ptr begin st
  rw [newRecords_of_trace_append _ _ _ htr]
  exact ⟨hall, hcat⟩

/-- Claim C1: for every logical record (byte string of any length,
including zero) and every starting cursor state, if the write returns
success then the ordered concatenation of the payload bytes of all
physical records it emitted equals the original byte string exactly. -/
theorem claim_C1_roundtrip (w : Writer) (failAt : Nat → Bool) (slice : List Nat)
    (crc : Nat) (st : LogState)
    (h : (w.add_record_with_crc failAt slice crc st).1 = Status.ok) :
    payloadConcat (newRecords st (w.add_record_with_crc failAt slice crc st).2) = slice :=
  (addLoop_newRecords failAt w.recycle_log_files w.log_number crc slice true st).2 h

theorem claim_C1_witness :
    ((Writer.init 7 false).add_record_with_crc (fun _ => false) [1, 2, 3] 5 initState).1 =
        Status.ok ∧
      payloadConcat (newRecords initState
        ((Writer.init 7 false).add_record_with_crc (fun _ => false) [1, 2, 3] 5
          initState).2) = [1, 2, 3] := by
  have h : ((Writer.init 7 false).add_record_with_crc (fun _ => false) [1, 2, 3] 5
      initState).1 = Status.ok := by
    simp [Writer.add_record_with_crc, Writer.init, addLoop, emitPhysicalRecord, rollIfNeeded,
      assertG, appendPad, initState, recordTypeOf, recordHeader, EncodeFixed32, headerSize,
      kBlockSize, kHeaderSize, kRecyclableHeaderSize, kFullType, kRecyclableFullType]
  exact ⟨h, claim_C1_roundtrip _ _ _ _ _ h⟩

/-- Claim C2: the 4-byte checksum field written into the header of every
physical fragment of one AddRecord call is the same value: the
caller-supplied checksum for the two-argument form, the checksum
computed over the full original payload for the one-argument form; it is
never recomputed from an individual fragment. -/
theorem claim_C2_crc_propagation (w : Writer) (failAt : Nat → Bool) (slice : List Nat)
    (crc : Nat) (st : LogState) :
    List.Forall (fun r => r.1.take 4 = EncodeFixed32 crc)
      (newRecords st (w.AddRecordCrc failAt slice crc st).2) ∧
    List.Forall (fun r => r.1.take 4 = EncodeFixed32 (crc32c.Value slice))
      (newRecords st (w.AddRecord failAt slice st).2) := by
  constructor
  · refine List.Forall.imp ?_
      (addLoop_newRecords failAt w.recycle_log_files w.log_number crc slice true st).1
    rintro r ⟨b, e, hr, _⟩
    rw [hr, recordHeader_take4]
  · refine List.Forall.imp ?_
      (addLoop_newRecords failAt w.recycle_log_files w.log_number (calculate_crc slice)
        slice true st).1
    rintro r ⟨b, e, hr, _⟩
    rw [hr, recordHeader_take4]
    rfl

/-- Claim C7: with recycle mode enabled, every physical record emitted,
including mid-logical-record fragments, has an 11-byte header whose last
4 bytes are the little-endian low 32 bits of the log identifier, and
carries a recyclable (not legacy) type code. -/
theorem claim_C7_recyclable (failAt : Nat → Bool) (logNumber crc : Nat)
    (slice : List Nat) (st : LogState) :
    List.Forall (fun r =>
        r.1.length = kRecyclableHeaderSize ∧
        r.1.drop 7 = EncodeFixed32 logNumber ∧
        kRecyclableFullType ≤ r.1.getD 6 0 ∧ r.1.getD 6 0 ≤ kRecyclableLastType)
      (newRecords st
        ((Writer.init logNumber true).add_record_with_crc failAt slice crc st).2) := by
  refine List.Forall.imp ?_ (addLoop_newRecords failAt true logNumber crc slice true st).1
  rintro r ⟨b, e, hr, _⟩
  have hge := (recordTypeOf_ge_of_recycle b e).1
  have hle := (recordTypeOf_ge_of_recycle b e).2
  have hnl : ¬recordTypeOf true b e < kRecyclableFullType := by omega
  refine ⟨?_, ?_, ?_, ?_⟩
  · rw [hr, recordHeader_length, if_neg hnl]
  · rw [hr]; exact recordHeader_drop7 _ _ _ _ hnl
  · rw [hr, recordHeader_getD6]; exact hge
  · rw [hr, recordHeader_getD6]; exact hle

/-- Claim C3 as amended: the per-type checksum table is precomputed by
the constructor (the checksum of each single type byte), but the
emission path does not use it as a seed; the checksum field of every
fragment is the record-level `crc` argument stamped unchanged. -/
theorem claim_C3_amended (failAt : Nat → Bool) (recycle : Bool) (logNumber crc : Nat)
    (slice : List Nat) (st : LogState) :
    (Writer.init logNumber recycle).type_crc =
      (List.range (kMaxRecordType + 1)).map (fun i => crc32c.Value [i]) ∧
    List.Forall (fun r => r.1.take 4 = EncodeFixed32 crc)
      (newRecords st
        ((Writer.init logNumber recycle).add_record_with_crc failAt slice crc st).2) := by
  refine ⟨rfl, ?_⟩
  refine List.Forall.imp ?_ (addLoop_newRecords failAt recycle logNumber crc slice true st).1
  rintro r ⟨b, e, hr, _⟩
  rw [hr, recordHeader_take4]

/-- Claim C3 counterexample: for the one-argument AddRecord of the single
byte 0 on a fresh legacy writer, the emitted checksum field is the
checksum of the whole payload, which differs from the checksum of the
payload seeded by the type-crc table entry of the Full type, so the
per-fragment seeded scheme the claim describes is not what is written. -/
theorem claim_C3_counterexample :
    newRecords initState
        ((Writer.init 0 false).AddRecord (fun _ => false) [0] initState).2 =
      [(recordHeader 0 kFullType 1 (crc32c.Value [0]), [0])] ∧
    ¬(recordHeader 0 kFullType 1 (crc32c.Value [0])).take 4 =
        EncodeFixed32 (crc32c.Extend ((Writer.init 0 false).type_crc.getD kFullType 0)
          [0]) := by
  constructor
  · simp [Writer.AddRecord, Writer.AddRecordCrc, Writer.add_record_with_crc, Writer.init,
      addLoop, emitPhysicalRecord, rollIfNeeded, assertG, appendPad, initState, calculate_crc,
      recordTypeOf, recordHeader, EncodeFixed32, headerSize, kBlockSize, kHeaderSize,
      kRecyclableHeaderSize, kFullType, kRecyclableFullType, newRecords, emittedRecords]
  · decide


theorem addLoop_ioError_shape (failAt : Nat → Bool) (recycle : Bool) (logNumber crc : Nat)
    (ptr : List Nat) (begin : Bool) (st : LogState)
    (h : (addLoop failAt recycle logNumber crc ptr begin st).1 = Status.ioError) :
    ∃ stPre t frag pre,
      stPre.trace = st.trace ++ pre ∧
      failAt stPre.calls = true ∧
      emitPhysicalRecord failAt logNumber t frag crc stPre =
        (Status.ioError, (addLoop failAt recycle logNumber crc ptr begin st).2) ∧
      (addLoop failAt recycle logNumber crc ptr begin st).2.blockOffset = stPre.blockOffset ∧
      (addLoop failAt recycle logNumber crc ptr begin st).2.trace =
        stPre.trace ++ [AppendCall.two (recordHeader logNumber t frag.length crc) frag] := by
  induction ptr, begin, st using addLoop.induct failAt recycle logNumber crc with
  | case1 ptr begin st hsz st0 st1 avail fl ty r rest hc ih =>
    have hstep : addLoop failAt recycle logNumber crc ptr begin st =
        addLoop failAt recycle logNumber crc rest false r.2 := by
      conv_lhs => rw [addLoop]
      exact dif_pos hc
    rw [hstep] at h ⊢
    obtain ⟨stPre, t, frag, pre, hpre, hfail, hemit, hoff, htr⟩ := ih h
    refine ⟨stPre, t, frag,
      (padOpt hsz st ++ [AppendCall.two (recordHeader logNumber ty (List.take fl ptr).length
        crc) (List.take fl ptr)]) ++ pre, ?_, hfail, hemit, hoff, htr⟩
    have h2 : r.2.trace = st1.trace ++
        [AppendCall.two (recordHeader logNumber ty (List.take fl ptr).length crc)
          (List.take fl ptr)] :=
      emitPhysicalRecord_trace failAt logNumber ty (List.take fl ptr) crc st1
    have h3 : st1.trace = st.trace ++ padOpt hsz st :=
      rollIfNeeded_trace_padOpt hsz st0
    rw [hpre, h2, h3]
    simp
  | case2 ptr begin st hsz st0 st1 avail fl ty r rest hc =>
    have hstep : addLoop failAt recycle logNumber crc ptr begin st = r := by
      conv_lhs => rw [addLoop]
      exact dif_neg hc
    rw [hstep] at h ⊢
    have hfst : r.1 = (if failAt st1.calls then Status.ioError else Status.ok) :=
      emitPhysicalRecord_fst failAt logNumber ty (List.take fl ptr) crc st1
    have hf : failAt st1.calls = true := by
      by_cases hb : failAt st1.calls
      · exact hb
      · rw [hfst, if_neg hb] at h
        simp at h
    refine ⟨st1, ty, List.take fl ptr, padOpt hsz st,
      rollIfNeeded_trace_padOpt hsz st0, hf, ?_, ?_, ?_⟩
    · have hpair : emitPhysicalRecord failAt logNumber ty (List.take fl ptr) crc st1 =
          (r.1, r.2) := rfl
      rw [hpair, h]
    · show (emitPhysicalRecord failAt logNumber ty (List.take fl ptr) crc st1).2.blockOffset =
        st1.blockOffset
      rw [emitPhysicalRecord_blockOffset, if_pos hf]
    · exact emitPhysicalRecord_trace failAt logNumber ty (List.take fl ptr) crc st1



theorem recordTypeOf_headerSize (recycle b e : Bool) :
    (if recordTypeOf recycle b e < kRecyclableFullType then kHeaderSize
      else kRecyclableHeaderSize) = headerSize recycle := by
  cases recycle
  · rw [if_pos (recordTypeOf_lt_of_legacy b e)]; rfl
  · rw [if_neg (by have := (recordTypeOf_ge_of_recycle b e).1; omega)]; rfl

theorem addLoop_asserts (failAt : Nat → Bool) (recycle : Bool) (logNumber crc : Nat)
    (ptr : List Nat) (begin : Bool) (st : LogState) :
    st.blockOffset ≤ kBlockSize →
      (addLoop failAt recycle logNumber crc ptr begin st).2.assertsOk = st.assertsOk ∧
      (addLoop failAt recycle logNumber crc ptr begin st).2.blockOffset ≤ kBlockSize := by
  induction ptr, begin, st using addLoop.induct failAt recycle logNumber crc with
  | case1 ptr begin st hsz st0 st1 avail fl ty r rest hc ih =>
    intro hoff
    have hK : kBlockSize = 32768 := rfl
    have hszle : hsz ≤ 11 := headerSize_le recycle
    have hszpos : 0 < hsz := headerSize_pos recycle
    have hb1 : st1.blockOffset =
        if kBlockSize - st.blockOffset < hsz then 0 else st.blockOffset :=
      rollIfNeeded_blockOffset hsz st0
    have hb2 : st1.blockOffset + hsz ≤ kBlockSize := by
      rw [hb1]; split <;> omega
    have ha0 : st0.assertsOk = (st.assertsOk && decide (st.blockOffset ≤ kBlockSize)) := rfl
    have ha1 : (rollIfNeeded hsz st0).assertsOk = (st0.assertsOk &&
        (if kBlockSize - st.blockOffset < hsz ∧ 0 < kBlockSize - st.blockOffset
          then decide (hsz ≤ 11) else true)) :=
      rollIfNeeded_assertsOk hsz st0
    have ha2 : st1.assertsOk = ((rollIfNeeded hsz st0).assertsOk &&
        decide (hsz ≤ kBlockSize - (rollIfNeeded hsz st0).blockOffset)) := rfl
    have ha3 : st1.assertsOk = st.assertsOk := by
      rw [ha2, ha1, ha0]
      have hc1 : st.blockOffset ≤ kBlockSize := hoff
      have hc2 : hsz ≤ kBlockSize - (rollIfNeeded hsz st0).blockOffset := by
        have : (rollIfNeeded hsz st0).blockOffset = st1.blockOffset := rfl
        rw [this]
        omega
      simp [hc1, hc2, hszle]
    have hn : (List.take fl ptr).length ≤ fl := by
      rw [List.length_take]; exact Nat.min_le_left _ _
    have hfl : fl ≤ kBlockSize - st1.blockOffset - hsz := Nat.min_le_right _ _
    have ha4 : r.2.assertsOk = (st1.assertsOk &&
        decide ((List.take fl ptr).length ≤ 0xffff) &&
        decide (st1.blockOffset + (if ty < kRecyclableFullType then kHeaderSize
          else kRecyclableHeaderSize) + (List.take fl ptr).length ≤ kBlockSize)) :=
      emitPhysicalRecord_assertsOk failAt logNumber ty (List.take fl ptr) crc st1
    have hty : (if ty < kRecyclableFullType then kHeaderSize
        else kRecyclableHeaderSize) = hsz :=
      recordTypeOf_headerSize recycle begin (decide (ptr.length = fl))
    have ha5 : r.2.assertsOk = st.assertsOk := by
      have he1 : decide ((List.take fl ptr).length ≤ 0xffff) = true := by
        rw [decide_eq_true_eq]
        omega
      have he2 : decide (st1.blockOffset + (if ty < kRecyclableFullType then kHeaderSize
          else kRecyclableHeaderSize) + (List.take fl ptr).length ≤ kBlockSize) = true := by
        rw [hty, decide_eq_true_eq]
        omega
      rw [ha4, he1, he2, ha3]
      simp
    have hb3 : r.2.blockOffset ≤ kBlockSize := by
      have := emitPhysicalRecord_blockOffset failAt logNumber ty (List.take fl ptr) crc st1
      have hlen : (recordHeader logNumber ty (List.take fl ptr).length crc).length = hsz :=
        recordHeader_length_typeOf logNumber (List.take fl ptr).length crc recycle begin
          (decide (ptr.length = fl))
      show r.2.blockOffset ≤ kBlockSize
      rw [show r.2.blockOffset =
        (emitPhysicalRecord failAt logNumber ty (List.take fl ptr) crc st1).2.blockOffset
        from rfl, this, hlen]
      split <;> omega
    have hstep : addLoop failAt recycle logNumber crc ptr begin st =
        addLoop failAt recycle logNumber crc rest false r.2 := by
      conv_lhs => rw [addLoop]
      exact dif_pos hc
    rw [hstep]
    obtain ⟨ih1, ih2⟩ := ih hb3
    exact ⟨by rw [ih1, ha5], ih2⟩
  | case2 ptr begin st hsz st0 st1 avail fl ty r rest hc =>
    intro hoff
    have hK : kBlockSize = 32768 := rfl
    have hszle : hsz ≤ 11 := headerSize_le recycle
    have hszpos : 0 < hsz := headerSize_pos recycle
    have hb1 : st1.blockOffset =
        if kBlockSize - st.blockOffset < hsz then 0 else st.blockOffset :=
      rollIfNeeded_blockOffset hsz st0
    have hb2 : st1.blockOffset + hsz ≤ kBlockSize := by
      rw [hb1]; split <;> omega
    have ha0 : st0.assertsOk = (st.assertsOk && decide (st.blockOffset ≤ kBlockSize)) := rfl
    have ha1 : (rollIfNeeded hsz st0).assertsOk = (st0.assertsOk &&
        (if kBlockSize - st.blockOffset < hsz ∧ 0 < kBlockSize - st.blockOffset
          then decide (hsz ≤ 11) else true)) :=
      rollIfNeeded_assertsOk hsz st0
    have ha2 : st1.assertsOk = ((rollIfNeeded hsz st0).assertsOk &&
        decide (hsz ≤ kBlockSize - (rollIfNeeded hsz st0).blockOffset)) := rfl
    have ha3 : st1.assertsOk = st.assertsOk := by
      rw [ha2, ha1, ha0]
      have hc1 : st.blockOffset ≤ kBlockSize := hoff
      have hc2 : hsz ≤ kBlockSize - (rollIfNeeded hsz st0).blockOffset := by
        have : (rollIfNeeded hsz st0).blockOffset = st1.blockOffset := rfl
        rw [this]
        omega
      simp [hc1, hc2, hszle]
    have hn : (List.take fl ptr).length ≤ fl := by
      rw [List.length_take]; exact Nat.min_le_left _ _
    have hfl : fl ≤ kBlockSize - st1.blockOffset - hsz := Nat.min_le_right _ _
    have ha4 : r.2.assertsOk = (st1.assertsOk &&
        decide ((List.take fl ptr).length ≤ 0xffff) &&
        decide (st1.blockOffset + (if ty < kRecyclableFullType then kHeaderSize
          else kRecyclableHeaderSize) + (List.take fl ptr).length ≤ kBlockSize)) :=
      emitPhysicalRecord_assertsOk failAt logNumber ty (List.take fl ptr) crc st1
    have hty : (if ty < kRecyclableFullType then kHeaderSize
        else kRecyclableHeaderSize) = hsz :=
      recordTypeOf_headerSize recycle begin (decide (ptr.length = fl))
    have ha5 : r.2.assertsOk = st.assertsOk := by
      have he1 : decide ((List.take fl ptr).length ≤ 0xffff) = true := by
        rw [decide_eq_true_eq]
        omega
      have he2 : decide (st1.blockOffset + (if ty < kRecyclableFullType then kHeaderSize
          else kRecyclableHeaderSize) + (List.take fl ptr).length ≤ kBlockSize) = true := by
        rw [hty, decide_eq_true_eq]
        omega
      rw [ha4, he1, he2, ha3]
      simp
    have hb3 : r.2.blockOffset ≤ kBlockSize := by
      have := emitPhysicalRecord_blockOffset failAt logNumber ty (List.take fl ptr) crc st1
      have hlen : (recordHeader logNumber ty (List.take fl ptr).length crc).length = hsz :=
        recordHeader_length_typeOf logNumber (List.take fl ptr).length crc recycle begin
          (decide (ptr.length = fl))
      show r.2.blockOffset ≤ kBlockSize
      rw [show r.2.blockOffset =
        (emitPhysicalRecord failAt logNumber ty (List.take fl ptr) crc st1).2.blockOffset
        from rfl, this, hlen]
      split <;> omega
    have hstep : addLoop failAt recycle logNumber crc ptr begin st = r := by
      conv_lhs => rw [addLoop]
      exact dif_neg hc
    rw [hstep]
    exact ⟨ha5, hb3⟩



/-- Claim C4: whenever the write returns an I/O failure, the run ended at
an emission on which the sink failed: that failed call is the last sink
call of the run (no further fragments were emitted), the cursor is
exactly the cursor before the failed emission (the failed fragment did
not advance it), and the advancement of the prior successful fragments,
embodied in that pre-emission state reached from the start state, is not
rolled back. -/
theorem claim_C4_failure (w : Writer) (failAt : Nat → Bool) (slice : List Nat)
    (crc : Nat) (st : LogState)
    (h : (w.add_record_with_crc failAt slice crc st).1 = Status.ioError) :
    ∃ stPre t frag pre,
      stPre.trace = st.trace ++ pre ∧
      failAt stPre.calls = true ∧
      emitPhysicalRecord failAt w.log_number t frag crc stPre =
        (Status.ioError, (w.add_record_with_crc failAt slice crc st).2) ∧
      (w.add_record_with_crc failAt slice crc st).2.blockOffset = stPre.blockOffset ∧
      (w.add_record_with_crc failAt slice crc st).2.trace =
        stPre.trace ++ [AppendCall.two (recordHeader w.log_number t frag.length crc) frag] :=
  addLoop_ioError_shape failAt w.recycle_log_files w.log_number crc slice true st h

theorem claim_C4_witness :
    (((Writer.init 3 false).add_record_with_crc (fun i => decide (i = 1))
        [1, 2, 3, 4, 5, 6, 7, 8, 9, 10] 2
        ⟨32755, 0, [], true⟩).1 = Status.ioError) ∧
    (∃ stPre t frag pre,
      stPre.trace = (⟨32755, 0, [], true⟩ : LogState).trace ++ pre ∧
      (fun i => decide (i = 1)) stPre.calls = true ∧
      emitPhysicalRecord (fun i => decide (i = 1)) (Writer.init 3 false).log_number t frag 2
          stPre =
        (Status.ioError, ((Writer.init 3 false).add_record_with_crc (fun i => decide (i = 1))
          [1, 2, 3, 4, 5, 6, 7, 8, 9, 10] 2 ⟨32755, 0, [], true⟩).2) ∧
      ((Writer.init 3 false).add_record_with_crc (fun i => decide (i = 1))
          [1, 2, 3, 4, 5, 6, 7, 8, 9, 10] 2 ⟨32755, 0, [], true⟩).2.blockOffset =
        stPre.blockOffset ∧
      ((Writer.init 3 false).add_record_with_crc (fun i => decide (i = 1))
          [1, 2, 3, 4, 5, 6, 7, 8, 9, 10] 2 ⟨32755, 0, [], true⟩).2.trace =
        stPre.trace ++ [AppendCall.two
          (recordHeader (Writer.init 3 false).log_number t frag.length 2) frag]) := by
  have h : ((Writer.init 3 false).add_record_with_crc (fun i => decide (i = 1))
      [1, 2, 3, 4, 5, 6, 7, 8, 9, 10] 2 ⟨32755, 0, [], true⟩).1 = Status.ioError := by
    simp [Writer.add_record_with_crc, Writer.init, addLoop, emitPhysicalRecord, rollIfNeeded,
      assertG, appendPad, recordTypeOf, recordHeader, EncodeFixed32, headerSize,
      kBlockSize, kHeaderSize, kRecyclableHeaderSize, kFirstType, kLastType,
      kRecyclableFullType]
  exact ⟨h, claim_C4_failure _ _ _ _ _ h⟩

/-- Claim C9: from any reachable cursor (at most one block) with no assert
failed, a write leaves every C++ assert satisfied, every emitted
fragment length at most 65535, and the preconditions of
EmitPhysicalRecord hold at every call, so the assertions never fire. -/
theorem claim_C9_bounds (w : Writer) (failAt : Nat → Bool) (slice : List Nat)
    (crc : Nat) (st : LogState) (h1 : st.blockOffset ≤ kBlockSize)
    (h2 : st.assertsOk = true) :
    (w.add_record_with_crc failAt slice crc st).2.assertsOk = true ∧
    List.Forall (fun r => r.2.length ≤ 65535)
      (newRecords st (w.add_record_with_crc failAt slice crc st).2) := by
  constructor
  · have h3 :=
      (addLoop_asserts failAt w.recycle_log_files w.log_number crc slice true st h1).1
    rw [h2] at h3
    exact h3
  · refine List.Forall.imp ?_
      (addLoop_newRecords failAt w.recycle_log_files w.log_number crc slice true st).1
    rintro r ⟨b, e, _, hlen⟩
    have h3 : headerSize w.recycle_log_files ≤ 11 := headerSize_le _
    have h4 : kBlockSize = 32768 := rfl
    omega

theorem claim_C9_witness :
    initState.blockOffset ≤ kBlockSize ∧ initState.assertsOk = true ∧
    ((((Writer.init 2 true).add_record_with_crc (fun _ => false) [5, 6] 1
        initState).2.assertsOk = true) ∧
      List.Forall (fun r => r.2.length ≤ 65535)
        (newRecords initState
          ((Writer.init 2 true).add_record_with_crc (fun _ => false) [5, 6] 1
            initState).2)) :=
  ⟨by decide, rfl, claim_C9_bounds _ _ _ _ _ (by decide) rfl⟩

@[simp] theorem padOpt_assertG (hsz : Nat) (b : Bool) (st : LogState) :
    padOpt hsz (assertG b st) = padOpt hsz st := rfl

theorem st1_trace (b0 b1 : Bool) (hsz : Nat) (st : LogState) :
    (assertG b1 (rollIfNeeded hsz (assertG b0 st))).trace = st.trace ++ padOpt hsz st := by
  rw [assertG_trace, rollIfNeeded_trace_padOpt, assertG_trace, padOpt_assertG]

theorem recordTypeOf_true_true (recycle : Bool) :
    recordTypeOf recycle true true =
      (if recycle then kRecyclableFullType else kFullType) := by
  unfold recordTypeOf
  simp

/-- A no-op roll: enough room for a header, state unchanged. -/
theorem rollIfNeeded_no_roll (hsz : Nat) (st : LogState)
    (h : hsz ≤ kBlockSize - st.blockOffset) : rollIfNeeded hsz st = st := by
  unfold rollIfNeeded
  rw [if_neg (by omega)]

/-- Rolling an exactly-full block: no filler write, cursor reset. -/
theorem rollIfNeeded_full (hsz : Nat) (st : LogState)
    (h0 : kBlockSize - st.blockOffset = 0) (h1 : 0 < hsz) :
    rollIfNeeded hsz st = { st with blockOffset := 0 } := by
  unfold rollIfNeeded
  rw [h0, if_pos h1, if_neg (by omega)]

@[simp] theorem assertG_true (st : LogState) : assertG true st = st := by
  unfold assertG
  rw [Bool.and_true]

end LogWriter

namespace LogWriter

/-- A successful emission spelled out: one two-buffer call appended,
cursor advanced by header size plus payload length. -/
theorem emit_ok (failAt : Nat → Bool) (ln t : Nat) (p : List Nat) (crc : Nat)
    (st : LogState) (h : failAt st.calls = false) :
    emitPhysicalRecord failAt ln t p crc st =
      (Status.ok,
        ⟨st.blockOffset + (recordHeader ln t p.length crc).length + p.length,
         st.calls + 1,
         st.trace ++ [AppendCall.two (recordHeader ln t p.length crc) p],
         st.assertsOk && decide (p.length ≤ 0xffff) &&
           decide (st.blockOffset + (if t < kRecyclableFullType then kHeaderSize
             else kRecyclableHeaderSize) + p.length ≤ kBlockSize)⟩) := by
  unfold emitPhysicalRecord assertG
  dsimp only
  rw [h]
  rfl

/-- The cursor state after the roll check and the two ghost asserts of
one loop iteration. -/
def loopSt1 (recycle : Bool) (st : LogState) : LogState :=
  assertG (decide (headerSize recycle ≤ kBlockSize -
    (rollIfNeeded (headerSize recycle)
      (assertG (decide (st.blockOffset ≤ kBlockSize)) st)).blockOffset))
    (rollIfNeeded (headerSize recycle)
      (assertG (decide (st.blockOffset ≤ kBlockSize)) st))

/-- The fragment length chosen by one loop iteration. -/
def loopFrag (recycle : Bool) (ptrLen : Nat) (st : LogState) : Nat :=
  min ptrLen (kBlockSize - (loopSt1 recycle st).blockOffset - headerSize recycle)

/-- One unfolding of the fragmentation loop without binders, for
rewriting concrete runs one iteration at a time. -/
theorem addLoop_step2 (failAt : Nat → Bool) (recycle : Bool) (ln crc : Nat)
    (ptr : List Nat) (begin : Bool) (st : LogState) :
    addLoop failAt recycle ln crc ptr begin st =
      if (emitPhysicalRecord failAt ln
            (recordTypeOf recycle begin (decide (ptr.length = loopFrag recycle ptr.length st)))
            (ptr.take (loopFrag recycle ptr.length st)) crc (loopSt1 recycle st)).1 =
            Status.ok ∧
          ptr.drop (loopFrag recycle ptr.length st) ≠ [] then
        addLoop failAt recycle ln crc (ptr.drop (loopFrag recycle ptr.length st)) false
          (emitPhysicalRecord failAt ln
            (recordTypeOf recycle begin (decide (ptr.length = loopFrag recycle ptr.length st)))
            (ptr.take (loopFrag recycle ptr.length st)) crc (loopSt1 recycle st)).2
      else
        emitPhysicalRecord failAt ln
          (recordTypeOf recycle begin (decide (ptr.length = loopFrag recycle ptr.length st)))
          (ptr.take (loopFrag recycle ptr.length st)) crc (loopSt1 recycle st) := by
  rw [addLoop]
  rfl

theorem c6_emit1 :
    emitPhysicalRecord (fun _ => false) 0 2 (List.replicate 32761 1) 0 initState =
      (Status.ok, ⟨32768, 1,
        [AppendCall.two (recordHeader 0 2 32761 0) (List.replicate 32761 1)], true⟩) := by
  rw [emit_ok (fun _ => false) 0 2 (List.replicate 32761 1) 0 initState rfl,
    List.length_replicate]
  simp only [-List.reduceReplicate, initState, List.nil_append]
  norm_num [-List.reduceReplicate, recordHeader_length, kRecyclableFullType, kHeaderSize,
    kBlockSize]

theorem c6_emit2 :
    emitPhysicalRecord (fun _ => false) 0 4 (List.replicate 7239 1) 0
      ⟨0, 1, [AppendCall.two (recordHeader 0 2 32761 0) (List.replicate 32761 1)], true⟩ =
      (Status.ok, ⟨7246, 2,
        [AppendCall.two (recordHeader 0 2 32761 0) (List.replicate 32761 1),
         AppendCall.two (recordHeader 0 4 7239 0) (List.replicate 7239 1)], true⟩) := by
  rw [emit_ok (fun _ => false) 0 4 (List.replicate 7239 1) 0
    ⟨0, 1, [AppendCall.two (recordHeader 0 2 32761 0) (List.replicate 32761 1)], true⟩ rfl,
    List.length_replicate]
  norm_num [-List.reduceReplicate, recordHeader_length, kRecyclableFullType, kHeaderSize,
    kBlockSize]

theorem c6_h1 :
    addLoop (fun _ => false) false 0 0 (List.replicate 40000 1) true initState =
      addLoop (fun _ => false) false 0 0 (List.replicate 7239 1) false
        ⟨32768, 1, [AppendCall.two (recordHeader 0 2 32761 0) (List.replicate 32761 1)],
          true⟩ := by
  have hne : List.replicate 7239 (1 : Nat) ≠ [] := by simp [-List.reduceReplicate]
  rw [addLoop_step2, List.length_replicate]
  rw [show loopFrag false 40000 initState = 32761 from by decide]
  rw [show loopSt1 false initState = initState from rfl]
  rw [show decide ((40000 : Nat) = 32761) = false from rfl]
  rw [show recordTypeOf false true false = 2 from rfl]
  rw [List.take_replicate, List.drop_replicate]
  rw [show (32761 : Nat) ⊓ 40000 = 32761 from rfl]
  rw [show (40000 : Nat) - 32761 = 7239 from rfl]
  rw [c6_emit1]
  rw [if_pos ⟨rfl, hne⟩]

theorem c6_h2 :
    addLoop (fun _ => false) false 0 0 (List.replicate 7239 1) false
        ⟨32768, 1, [AppendCall.two (recordHeader 0 2 32761 0) (List.replicate 32761 1)],
          true⟩ =
      (Status.ok, ⟨7246, 2,
        [AppendCall.two (recordHeader 0 2 32761 0) (List.replicate 32761 1),
         AppendCall.two (recordHeader 0 4 7239 0) (List.replicate 7239 1)], true⟩) := by
  rw [addLoop_step2, List.length_replicate]
  rw [show loopFrag false 7239
    ⟨32768, 1, [AppendCall.two (recordHeader 0 2 32761 0) (List.replicate 32761 1)], true⟩ =
    7239 from by decide]
  rw [show loopSt1 false
    ⟨32768, 1, [AppendCall.two (recordHeader 0 2 32761 0) (List.replicate 32761 1)], true⟩ =
    ⟨0, 1, [AppendCall.two (recordHeader 0 2 32761 0) (List.replicate 32761 1)], true⟩
    from rfl]
  rw [show decide ((7239 : Nat) = 7239) = true from rfl]
  rw [show recordTypeOf false false true = 4 from rfl]
  rw [List.take_replicate, List.drop_replicate]
  rw [show (7239 : Nat) ⊓ 7239 = 7239 from rfl]
  rw [show (7239 : Nat) - 7239 = 0 from rfl]
  rw [List.replicate_zero]
  rw [c6_emit2]
  rw [if_neg (fun hx => hx.2 rfl)]

/-- Claim C6: with block size 32768 and legacy header size 7, a
fresh-block AddRecord of logical length 40000 produces exactly two
physical records: the first of fragment length 32761 with type First,
the second of fragment length 7239 with type Last, and the final cursor
is 7246 within the new block. -/
theorem claim_C6_concrete :
    ((Writer.init 0 false).AddRecordCrc (fun _ => false) (List.replicate 40000 1) 0
        initState).1 = Status.ok ∧
    newRecords initState
        ((Writer.init 0 false).AddRecordCrc (fun _ => false) (List.replicate 40000 1) 0
          initState).2 =
      [(recordHeader 0 kFirstType 32761 0, List.replicate 32761 1),
       (recordHeader 0 kLastType 7239 0, List.replicate 7239 1)] ∧
    ((Writer.init 0 false).AddRecordCrc (fun _ => false) (List.replicate 40000 1) 0
        initState).2.blockOffset = 7246 := by
  have hrun : (Writer.init 0 false).AddRecordCrc (fun _ => false) (List.replicate 40000 1) 0
      initState = (Status.ok, ⟨7246, 2,
        [AppendCall.two (recordHeader 0 2 32761 0) (List.replicate 32761 1),
         AppendCall.two (recordHeader 0 4 7239 0) (List.replicate 7239 1)], true⟩) := by
    show addLoop (fun _ => false) false 0 0 (List.replicate 40000 1) true initState = _
    rw [c6_h1, c6_h2]
  rw [hrun]
  refine ⟨rfl, ?_, rfl⟩
  rw [show kFirstType = 2 from rfl, show kLastType = 4 from rfl]
  simp only [-List.reduceReplicate, newRecords, initState, emittedRecords, List.length_nil,
    List.drop_zero]

/-- Claim C5: whenever a block roll occurs (remaining space smaller than
the header size), the number of zero-padding bytes written equals
exactly the leftover space before the roll, the filler write is skipped
entirely when the leftover is 0, and immediately after the roll the
cursor is exactly 0.  `addLoop` performs its roll through
`rollIfNeeded`. -/
theorem claim_C5_padding (hsz : Nat) (st : LogState)
    (h : kBlockSize - st.blockOffset < hsz) :
    (rollIfNeeded hsz st).blockOffset = 0 ∧
    (rollIfNeeded hsz st).trace = st.trace ++
      (if 0 < kBlockSize - st.blockOffset
        then [AppendCall.one (List.replicate (kBlockSize - st.blockOffset) 0)] else []) := by
  constructor
  · rw [rollIfNeeded_blockOffset, if_pos h]
  · rw [rollIfNeeded_trace]
    congr 1
    by_cases h2 : 0 < kBlockSize - st.blockOffset
    · rw [if_pos ⟨h, h2⟩, if_pos h2]
    · rw [if_neg (fun hx => h2 hx.2), if_neg h2]

theorem claim_C5_witness :
    (kBlockSize - (⟨32765, 0, [], true⟩ : LogState).blockOffset < 7) ∧
    ((rollIfNeeded 7 ⟨32765, 0, [], true⟩).blockOffset = 0 ∧
      (rollIfNeeded 7 ⟨32765, 0, [], true⟩).trace =
        (⟨32765, 0, [], true⟩ : LogState).trace ++
          (if 0 < kBlockSize - (⟨32765, 0, [], true⟩ : LogState).blockOffset
            then [AppendCall.one (List.replicate
              (kBlockSize - (⟨32765, 0, [], true⟩ : LogState).blockOffset) 0)] else [])) :=
  ⟨by decide, claim_C5_padding 7 _ (by decide)⟩

/-- Claim C8: AddRecord on an empty payload still emits exactly one
physical record, of Full type for the writer mode, with fragment
length 0. -/
theorem claim_C8_empty (w : Writer) (failAt : Nat → Bool) (crc : Nat) (st : LogState) :
    newRecords st (w.add_record_with_crc failAt [] crc st).2 =
      [(recordHeader w.log_number
        (if w.recycle_log_files then kRecyclableFullType else kFullType) 0 crc, [])] := by
  rw [Writer.add_record_with_crc, addLoop_step]
  simp only [List.length_nil, Nat.zero_min, List.take_nil, List.drop_nil, ne_eq,
    not_true_eq_false, and_false, if_false]
  rw [newRecords_of_trace_append _ _
    (padOpt (headerSize w.recycle_log_files) st ++
      [AppendCall.two (recordHeader w.log_number
        (recordTypeOf w.recycle_log_files true (decide True))
        (List.length ([] : List Nat)) crc) []])
    (by rw [emitPhysicalRecord_trace, st1_trace, List.append_assoc])]
  simp [emittedRecords_append, emittedRecords, recordTypeOf_true_true]

theorem loopSt1_trace (recycle : Bool) (st : LogState) :
    (loopSt1 recycle st).trace = st.trace ++ padOpt (headerSize recycle) st := by
  unfold loopSt1
  exact st1_trace _ _ _ _

theorem loopSt1_blockOffset (recycle : Bool) (st : LogState) :
    (loopSt1 recycle st).blockOffset =
      if kBlockSize - st.blockOffset < headerSize recycle then 0 else st.blockOffset := by
  unfold loopSt1
  rw [assertG_blockOffset, rollIfNeeded_blockOffset, assertG_blockOffset]

theorem loopSt1_calls (recycle : Bool) (st : LogState) :
    (loopSt1 recycle st).calls = st.calls +
      (if kBlockSize - st.blockOffset < headerSize recycle ∧ 0 < kBlockSize - st.blockOffset
        then 1 else 0) := by
  unfold loopSt1
  rw [assertG_calls, rollIfNeeded_calls, assertG_calls, assertG_blockOffset]

/-- The first physical record any loop run emits: the optional padding of
a roll, then one two-buffer call carrying the chosen fragment. -/
theorem addLoop_first_record_trace (failAt : Nat → Bool) (recycle : Bool) (ln crc : Nat)
    (ptr : List Nat) (begin : Bool) (st : LogState) :
    ∃ ext, (addLoop failAt recycle ln crc ptr begin st).2.trace =
      st.trace ++ padOpt (headerSize recycle) st ++
        AppendCall.two
          (recordHeader ln
            (recordTypeOf recycle begin (decide (ptr.length = loopFrag recycle ptr.length st)))
            (ptr.take (loopFrag recycle ptr.length st)).length crc)
          (ptr.take (loopFrag recycle ptr.length st)) :: ext := by
  rw [addLoop_step2]
  split
  · obtain ⟨tail, htr, -, -⟩ := addLoop_main failAt recycle ln crc
      (ptr.drop (loopFrag recycle ptr.length st)) false
      (emitPhysicalRecord failAt ln
        (recordTypeOf recycle begin (decide (ptr.length = loopFrag recycle ptr.length st)))
        (ptr.take (loopFrag recycle ptr.length st)) crc (loopSt1 recycle st)).2
    refine ⟨tail, ?_⟩
    rw [htr, emitPhysicalRecord_trace, loopSt1_trace]
    simp [List.append_assoc]
  · refine ⟨[], ?_⟩
    rw [emitPhysicalRecord_trace, loopSt1_trace]

/-- Claim C10: when the remaining space in the current block is exactly
the header size (so avail is 0) while payload bytes remain, the writer
does not roll: it emits a zero-length First-or-Middle record that fills
the block exactly, and the next iteration rolls to a fresh block with no
padding; the following sink call is directly the next fragment, whose
payload is nonempty. -/
theorem claim_C10_zero_fragment (failAt : Nat → Bool) (recycle : Bool) (ln crc : Nat)
    (ptr : List Nat) (begin : Bool) (st : LogState)
    (hoff : st.blockOffset + headerSize recycle = kBlockSize)
    (hptr : ptr ≠ [])
    (hfail : failAt st.calls = false) :
    ∃ h2 p2 ext,
      (addLoop failAt recycle ln crc ptr begin st).2.trace =
        st.trace ++
          AppendCall.two (recordHeader ln (recordTypeOf recycle begin false) 0 crc) [] ::
          AppendCall.two h2 p2 :: ext ∧
      0 < p2.length := by
  have hL : 0 < ptr.length := List.length_pos.mpr hptr
  have hszpos := headerSize_pos recycle
  have hszlt := headerSize_lt_kBlockSize recycle
  have hno : ¬kBlockSize - st.blockOffset < headerSize recycle := by omega
  have hcalls : failAt (loopSt1 recycle st).calls = false := by
    rw [loopSt1_calls, if_neg (fun hx => hno hx.1)]
    exact hfail
  have ef : loopFrag recycle ptr.length st = 0 := by
    unfold loopFrag
    rw [loopSt1_blockOffset, if_neg hno,
      show kBlockSize - st.blockOffset - headerSize recycle = 0 from by omega,
      Nat.min_zero]
  rw [addLoop_step2, ef, decide_eq_false (by omega : ¬ptr.length = 0),
    List.take_zero, List.drop_zero]
  have hfst : (emitPhysicalRecord failAt ln (recordTypeOf recycle begin false)
      [] crc (loopSt1 recycle st)).1 = Status.ok := by
    rw [emitPhysicalRecord_fst, hcalls]
    rfl
  rw [if_pos ⟨hfst, hptr⟩]
  have hpad : padOpt (headerSize recycle) st = [] := by
    unfold padOpt
    rw [if_neg (fun hx => hno hx.1)]
  have hR2off : (emitPhysicalRecord failAt ln (recordTypeOf recycle begin false)
      [] crc (loopSt1 recycle st)).2.blockOffset = kBlockSize := by
    rw [emitPhysicalRecord_blockOffset, hcalls, if_neg (by simp),
      recordHeader_length_typeOf ln (List.length ([] : List Nat)) crc recycle begin false,
      loopSt1_blockOffset, if_neg hno]
    simp
    omega
  have hR2trace : (emitPhysicalRecord failAt ln (recordTypeOf recycle begin false)
      [] crc (loopSt1 recycle st)).2.trace = st.trace ++
      [AppendCall.two (recordHeader ln (recordTypeOf recycle begin false) 0 crc) []] := by
    rw [emitPhysicalRecord_trace, loopSt1_trace, hpad]
    simp
  obtain ⟨ext, hext⟩ := addLoop_first_record_trace failAt recycle ln crc ptr false
    (emitPhysicalRecord failAt ln (recordTypeOf recycle begin false)
      [] crc (loopSt1 recycle st)).2
  have hpad2 : padOpt (headerSize recycle)
      (emitPhysicalRecord failAt ln (recordTypeOf recycle begin false)
        [] crc (loopSt1 recycle st)).2 = [] := by
    unfold padOpt
    rw [hR2off, if_neg (fun hx => by omega)]
  have hfl2pos : 0 < (ptr.take (loopFrag recycle ptr.length
      (emitPhysicalRecord failAt ln (recordTypeOf recycle begin false)
        [] crc (loopSt1 recycle st)).2)).length := by
    rw [List.length_take]
    have e2 : loopFrag recycle ptr.length
        (emitPhysicalRecord failAt ln (recordTypeOf recycle begin false)
          [] crc (loopSt1 recycle st)).2 =
        min ptr.length (kBlockSize - headerSize recycle) := by
      unfold loopFrag
      rw [loopSt1_blockOffset, hR2off, if_pos (by omega), Nat.sub_zero]
    rw [e2]
    rw [Nat.lt_min]
    constructor
    · rw [Nat.lt_min]
      omega
    · omega
  exact ⟨_, _, ext, by
    rw [hext, hR2trace, hpad2, List.append_nil, List.append_assoc, List.singleton_append],
    hfl2pos⟩

theorem claim_C10_witness :
    ((⟨32761, 0, [], true⟩ : LogState).blockOffset + headerSize false = kBlockSize) ∧
    (([9] : List Nat) ≠ []) ∧
    ((fun _ => false : Nat → Bool) (⟨32761, 0, [], true⟩ : LogState).calls = false) ∧
    (∃ h2 p2 ext,
      (addLoop (fun _ => false) false 0 0 [9] true ⟨32761, 0, [], true⟩).2.trace =
        (⟨32761, 0, [], true⟩ : LogState).trace ++
          AppendCall.two (recordHeader 0 (recordTypeOf false true false) 0 0) [] ::
          AppendCall.two h2 p2 :: ext ∧
      0 < p2.length) :=
  ⟨by decide, by decide, rfl,
    claim_C10_zero_fragment (fun _ => false) false 0 0 [9] true ⟨32761, 0, [], true⟩
      (by decide) (by decide) rfl⟩

end LogWriter
